import Mathlib

/-!
Verification of the Speech repository's core services against its
natural-language specification.

The Python sources under `backend/` are shallowly embedded as Lean
definitions: dictionaries become association lists, `Decimal` becomes `Rat`
(both are exact), exceptions become `Except`, and asynchronous effects are
sequentialized (each stage's outcome is passed in as an explicit value).
Every definition mirrors one function of the source, keeping its name where
Lean allows it.
-/

deriving instance DecidableEq for Except

namespace Speech

/-! ## Association-list helpers (Python `dict` semantics)

A Python `dict` preserves insertion order, assignment replaces the value of
an existing key in place, and `del` removes the (unique) binding of a key.
States in this development are built from `[]` with `setA`, so keys are
unique and `eraseA` (which removes every binding of the key) agrees with
`del`.
-/

def lookupA {κ α : Type} [DecidableEq κ] : List (κ × α) → κ → Option α
  | [], _ => none
  | (k', v) :: t, k => if k' = k then some v else lookupA t k

def setA {κ α : Type} [DecidableEq κ] : List (κ × α) → κ → α → List (κ × α)
  | [], k, v => [(k, v)]
  | (k', v') :: t, k, v => if k' = k then (k, v) :: t else (k', v') :: setA t k v

def eraseA {κ α : Type} [DecidableEq κ] (l : List (κ × α)) (k : κ) : List (κ × α) :=
  l.filter (fun p => p.1 ≠ k)

/-! ## Turn & Interrupt Manager (`backend/services/interrupt_manager.py`)

The source keeps `_active_turns : dict[session_id, dict[turn_id, InterruptState]]`.
We flatten the nested dicts to one map keyed by the `(session_id, turn_id)`
pair; the source's deletion of an empty per-session inner dict has no
observable effect on any lookup, so the flat map is observationally
equivalent.  Timestamps are passed in explicitly (the source reads
`datetime.utcnow()`), and a cleanup callback is modelled by its name and a
flag saying whether running it raises.  `interrupt` returns the new manager
state together with the trace of cleanup callbacks that were executed: the
source wraps each callback in `try/except`, so a raising callback is logged
and the loop continues, which is why the trace below always contains every
registered callback.
-/

inductive InterruptReason
  | userBargeIn
  | timeout
  | error
  | manual
  | replaced

deriving DecidableEq, Repr

structure InterruptEvent where
  sessionId : String
  turnId : String
  reason : InterruptReason
  timestamp : Nat
  stage : Option String

deriving DecidableEq, Repr

structure InterruptState where
  interrupted : Bool := false
  event : Option InterruptEvent := none
  task : Option Nat := none
  cleanupCallbacks : List (String × Bool) := []

deriving DecidableEq, Repr

def IMState : Type := List ((String × String) × InterruptState)

instance : DecidableEq IMState := by
  unfold IMState
  infer_instance

def getState (st : IMState) (sessionId turnId : String) : Option InterruptState :=
  lookupA st (sessionId, turnId)

def startTurn (st : IMState) (sessionId : String) (turnId? : Option String) (nowTs : String) :
    String × IMState :=
  let turnId := match turnId? with
    | none => sessionId ++ "_" ++ nowTs
    | some t => t
  (turnId, setA st (sessionId, turnId) {})

def isInterrupted (st : IMState) (sessionId turnId : String) : Bool :=
  match getState st sessionId turnId with
  | some s => s.interrupted
  | none => false

def getInterruptEvent (st : IMState) (sessionId turnId : String) : Option InterruptEvent :=
  match getState st sessionId turnId with
  | some s => s.event
  | none => none

def runCleanups : List (String × Bool) → List (String × Bool)
  | [] => []
  | cb :: rest => cb :: runCleanups rest

def interrupt (st : IMState) (sessionId turnId : String) (reason : InterruptReason)
    (stage : Option String) (nowTs : Nat) : IMState × List (String × Bool) :=
  match getState st sessionId turnId with
  | none => (st, [])
  | some s =>
    if s.interrupted then (st, [])
    else
      let s' : InterruptState :=
        { s with
          interrupted := true
          event := some
            { sessionId := sessionId, turnId := turnId, reason := reason
              timestamp := nowTs, stage := stage } }
      (setA st (sessionId, turnId) s', runCleanups s.cleanupCallbacks)

def registerCleanup (st : IMState) (sessionId turnId : String) (cb : String × Bool) : IMState :=
  match getState st sessionId turnId with
  | none => st
  | some s => setA st (sessionId, turnId) { s with cleanupCallbacks := s.cleanupCallbacks ++ [cb] }

def registerTask (st : IMState) (sessionId turnId : String) (h : Nat) : IMState :=
  match getState st sessionId turnId with
  | none => st
  | some s => setA st (sessionId, turnId) { s with task := some h }

def finishTurn (st : IMState) (sessionId turnId : String) : IMState :=
  eraseA st (sessionId, turnId)

/-! ## Conversation pipeline (`backend/services/conversation_pipeline.py`)

`process_audio` drives ASR, RAG, LLM, translation and TTS sequentially; each
stage's outcome is passed in here as an explicit `Except` value (the stages
only read the interrupt manager, they never mutate the active-turn map).
Database-metrics updates are wrapped in their own `try/except` in the source
and swallowed, so they are not modelled.  The `finally` clause is the
expression after the body: the source guards it with
`if session_id and turn_id`, where Python truthiness makes `None` *and* the
empty string falsy (`pyTruthy`).  `finishCalls` counts how many times
`finish_turn` was invoked.
-/

inductive PipeError
  | interruptedErr (msg : String)
  | failed (msg : String)

deriving DecidableEq, Repr

structure ConversationTurn where
  transcript : String
  llmResponse : String
  translatedText : String
  audioResponse : String

deriving DecidableEq, Repr

structure PipeOutcome where
  result : Except PipeError ConversationTurn
  manager : IMState
  finishCalls : Nat

def pyTruthy : Option String → Bool
  | none => false
  | some s => s ≠ ""

def processAudio (st : IMState) (sessionId : Option String) (turnId? : Option String)
    (nowTs : String) (asrR llmR transR ttsR : Except PipeError String)
    (persistR : Except PipeError Unit) : PipeOutcome :=
  let opened : Option String × IMState :=
    if pyTruthy sessionId then
      let p := startTurn st (sessionId.getD "") turnId? nowTs
      (some p.1, p.2)
    else (turnId?, st)
  let turnId := opened.1
  let st1 := opened.2
  let body : Except PipeError ConversationTurn := do
    let a ← asrR
    let l ← llmR
    let t ← transR
    let s ← ttsR
    let _ ← persistR
    pure { transcript := a, llmResponse := l, translatedText := t, audioResponse := s }
  if pyTruthy sessionId && pyTruthy turnId then
    { result := body
      manager := finishTurn st1 (sessionId.getD "") (turnId.getD "")
      finishCalls := 1 }
  else
    { result := body, manager := st1, finishCalls := 0 }

/-- Modelled from the spec for a refinement comparison (claim C3): the spec's
`start_turn` "fails only if the same (session, turn_id) pair is already
active — signals a `DuplicateTurn` condition". -/
def startTurnSpec (st : IMState) (sessionId : String) (turnId? : Option String)
    (nowTs : String) : Except String (String × IMState) :=
  let turnId := match turnId? with
    | none => sessionId ++ "_" ++ nowTs
    | some t => t
  if (getState st sessionId turnId).isSome then .error "DuplicateTurn"
  else .ok (turnId, setA st (sessionId, turnId) {})

/-! ## Adaptive cache (`backend/utils/cache.py`)

The Redis-backed stores are modelled by `Conn`: `unconfigured` is a missing
`redis_url` (`_redis_client` raises `CacheNotConfiguredError`, which every
method catches), `unreachable` is a configured but unreachable store (the
redis client raises a connection error, which no method catches), and `ok`
carries the store contents.  JSON encode/decode round-trips are elided (the
stores hold the decoded values), and sha256 key hashing is modelled by its
pre-image content string (`hashQuery`), which the hash is assumed to reflect
injectively.  TTLs are carried but expiry belongs to the external store.
-/

inductive ConnError
  | connectionError

deriving DecidableEq, Repr

inductive Conn (α : Type)
  | unconfigured
  | unreachable
  | ok (s : α)

deriving DecidableEq, Repr

structure CachedAudio where
  audio_b64 : String
  codec : String
  sample_rate_hz : Nat

deriving DecidableEq, Repr

structure CachedLLMResponse where
  response_text : String
  query_hash : String
  guardrail_safe : Bool
  token_count : Nat
  optimization_level : String

deriving DecidableEq, Repr

def TTSStore : Type := List (String × CachedAudio)

instance : DecidableEq TTSStore := by
  unfold TTSStore
  infer_instance

def ttsGet (conn : Conn TTSStore) (key : String) : Except ConnError (Option CachedAudio) :=
  match conn with
  | .unconfigured => .ok none
  | .unreachable => .error .connectionError
  | .ok s => .ok (lookupA s key)

def ttsSet (conn : Conn TTSStore) (key : String) (value : CachedAudio) (ttl : Option Nat) :
    Except ConnError (Conn TTSStore) :=
  match conn with
  | .unconfigured => .ok .unconfigured
  | .unreachable => .error .connectionError
  | .ok s =>
    match ttl with
    | _ => .ok (.ok (setA s key value))

structure LLMStore where
  exactEntries : List (String × CachedLLMResponse)
  semanticEntries : List (String × CachedLLMResponse)
  queryIndex : List String

deriving DecidableEq, Repr

/-- Python `str.lower()`, restricted to the ASCII case mapping used by the
claims' inputs.  (The core `String.toLower` is positional and does not reduce
in the kernel, so the map is taken over the character list.) -/
def toLowerStr (s : String) : String := String.mk (s.data.map Char.toLower)

/-- Python `str.strip()`: remove leading and trailing whitespace. -/
def trimStr (s : String) : String :=
  String.mk (((s.data.dropWhile Char.isWhitespace).reverse.dropWhile Char.isWhitespace).reverse)

def splitWsChars : List Char → List Char → List String
  | [], acc => if acc = [] then [] else [String.mk acc.reverse]
  | c :: rest, acc =>
    if c.isWhitespace then
      if acc = [] then splitWsChars rest []
      else String.mk acc.reverse :: splitWsChars rest []
    else splitWsChars rest (c :: acc)

/-- Python `str.split()` with no argument: split on whitespace runs, never
producing empty words. -/
def splitWs (s : String) : List String := splitWsChars s.data []

/-- Python `" ".join(words)`. -/
def joinWith (sep : String) : List String → String
  | [] => ""
  | [w] => w
  | w :: ws => w ++ sep ++ joinWith sep ws

def hashQuery (query : String) (optimizationLevel : String) : String :=
  trimStr (toLowerStr query) ++ ":" ++ optimizationLevel

def normalizeQuery (query : String) : String :=
  joinWith " " (splitWs (trimStr (toLowerStr query)))

def wordSet (s : String) : List String :=
  (splitWs (toLowerStr s)).dedup

def calculateSimilarity (q1 q2 : String) : Rat :=
  let words1 := wordSet q1
  let words2 := wordSet q2
  if words1 = [] ∨ words2 = [] then 0
  else
    let inter := words1.filter (fun w => w ∈ words2)
    let uni := words1 ++ words2.filter (fun w => w ∉ words1)
    mkRat inter.length uni.length

def getExact (conn : Conn LLMStore) (query : String) (optimizationLevel : String) :
    Except ConnError (Option CachedLLMResponse) :=
  match conn with
  | .unconfigured => .ok none
  | .unreachable => .error .connectionError
  | .ok s => .ok (lookupA s.exactEntries ("llm:exact:" ++ hashQuery query optimizationLevel))

def bestLoop (normq : String) (thr : Rat) :
    List String → Rat → Option String → Option String
  | [], _, best => best
  | c :: rest, bestSim, best =>
    let sim := calculateSimilarity normq c
    if bestSim < sim ∧ thr ≤ sim then bestLoop normq thr rest sim (some c)
    else bestLoop normq thr rest bestSim best

def getSemantic (conn : Conn LLMStore) (query optimizationLevel : String)
    (similarityThreshold : Rat) : Except ConnError (Option CachedLLMResponse) :=
  if optimizationLevel ∈ ["quality", "balanced_quality"] then
    match conn with
    | .unconfigured => .ok none
    | .unreachable => .error .connectionError
    | .ok s =>
      let normalizedQuery := normalizeQuery query
      let recentQueries := s.queryIndex.take 100
      match bestLoop normalizedQuery similarityThreshold recentQueries 0 none with
      | none => .ok none
      | some q => .ok (lookupA s.semanticEntries ("llm:semantic:" ++ q))
  else .ok none

def llmSet (conn : Conn LLMStore) (query : String) (response : CachedLLMResponse)
    (ttl : Option Nat) : Except ConnError (Conn LLMStore) :=
  match conn with
  | .unconfigured => .ok .unconfigured
  | .unreachable => .error .connectionError
  | .ok s =>
    match ttl with
    | _ =>
      let s1 := { s with
        exactEntries := setA s.exactEntries
          ("llm:exact:" ++ hashQuery query response.optimization_level) response }
      if response.optimization_level ∈ ["quality", "balanced_quality"] then
        let nq := normalizeQuery query
        let s2 := { s1 with semanticEntries := setA s1.semanticEntries ("llm:semantic:" ++ nq) response }
        .ok (.ok { s2 with queryIndex := (nq :: s2.queryIndex.erase nq).take 1000 })
      else .ok (.ok s1)

def maxSimilarity (normq : String) (cands : List String) : Rat :=
  (cands.map (calculateSimilarity normq)).foldr max 0

/-- The spec's semantic-selection rule, for comparison with `bestLoop`: among
the candidates (most recent first), pick the one with the highest similarity,
provided it reaches the threshold, breaking ties in favour of the earlier
(i.e. more recent) candidate. -/
def specBest (normq : String) (thr : Rat) (cands : List String) : Option String :=
  if thr ≤ maxSimilarity normq cands then
    cands.find? (fun c => calculateSimilarity normq c = maxSimilarity normq cands)
  else none

/-! ## Guardrail engine (`backend/services/guardrail_service.py`)

Layer 1 is a substring scan of the lowercased input against the fixed
deny-list.  Layer 3 re-runs the deny-list on the model output, enforces a
150-word ceiling and searches four PII regexes; the regexes are embedded as
character-class sequences with bounded repetition (`RToken`), matched with
full backtracking (`matchSeq` enumerates every split) and Python `\b`
word-boundary semantics at both ends (all four patterns are `\b`-anchored).
`re.search` is used by the source only as a boolean, so only existence of a
match is modelled.  ASCII character classes are used, matching the claims'
inputs.  Violation logging (`log_violation`) is an external side effect and
not part of the checks.
-/

def BLOCKED_KEYWORDS : List String :=
  [ "medical advice", "prescribe medication", "diagnose disease", "treatment for",
    "cure for cancer",
    "legal advice", "sue someone", "write a contract", "legal representation",
    "financial advice", "invest my money", "stock tips", "crypto investment",
    "how to make bomb", "how to make weapon", "illegal drugs", "hack into",
    "credit card number", "social security number", "bank account details" ]

/-- Python substring containment (`needle in haystack`). -/
def subOf (needle : List Char) : List Char → Bool
  | [] => needle.isEmpty
  | c :: t => needle.isPrefixOf (c :: t) || subOf needle t

structure GuardrailViolation where
  layer : String
  rule_type : String
  severity : String
  message : String
  blocked : Bool

deriving DecidableEq, Repr

structure GuardrailResult where
  passed : Bool
  violations : List GuardrailViolation
  safe_response : Option String := none

deriving DecidableEq, Repr

def INPUT_SAFE_RESPONSE : String :=
  "I\x27m here to help with questions about our products and services. "
    ++ "I\x27m not able to provide medical, legal, or financial advice, "
    ++ "or assist with harmful requests."

def checkInput (enabled : Bool) (userInput : String) : GuardrailResult :=
  if !enabled then { passed := true, violations := [] }
  else
    let lower := toLowerStr userInput
    let violations := (BLOCKED_KEYWORDS.filter (fun kw => subOf kw.data lower.data)).map
      (fun kw =>
        { layer := "pre_llm", rule_type := "blocked_keyword", severity := "high",
          message := "Input contains blocked keyword: " ++ kw, blocked := true })
    if violations = [] then { passed := true, violations := [] }
    else { passed := false, violations := violations,
           safe_response := some INPUT_SAFE_RESPONSE }

structure RToken where
  cls : Char → Bool
  lo : Nat
  hi : Option Nat

def wordChar : Option Char → Bool
  | none => false
  | some c => c.isAlphanum || c = '_'

def isBoundary (prev next : Option Char) : Bool := wordChar prev != wordChar next

def countRun (p : Char → Bool) : List Char → Nat
  | [] => 0
  | c :: t => if p c then countRun p t + 1 else 0

def consume (tok : RToken) (st : Option Char × List Char) : List (Option Char × List Char) :=
  let run := countRun tok.cls st.2
  let top := match tok.hi with
    | none => run
    | some h => min h run
  if top < tok.lo then []
  else (List.range (top + 1 - tok.lo)).map (fun i =>
    let n := tok.lo + i
    (if n = 0 then st.1 else (st.2.take n).getLast?, st.2.drop n))

def matchSeq : List RToken → (Option Char × List Char) → List (Option Char × List Char)
  | [], st => [st]
  | tok :: toks, st => (consume tok st).flatMap (matchSeq toks)

def searchFrom (toks : List RToken) : Option Char → List Char → Bool
  | prev, [] =>
    isBoundary prev none
      && (matchSeq toks (prev, [])).any (fun st => isBoundary st.1 st.2.head?)
  | prev, c :: t =>
    (isBoundary prev (some c)
        && (matchSeq toks (prev, c :: t)).any (fun st => isBoundary st.1 st.2.head?))
      || searchFrom toks (some c) t

def searchPat (toks : List RToken) (s : String) : Bool := searchFrom toks none s.data

def isSepSpaceDash (c : Char) : Bool := c.isWhitespace || c = '-'

def creditCardPat : List RToken :=
  [ ⟨Char.isDigit, 4, some 4⟩, ⟨isSepSpaceDash, 0, some 1⟩,
    ⟨Char.isDigit, 4, some 4⟩, ⟨isSepSpaceDash, 0, some 1⟩,
    ⟨Char.isDigit, 4, some 4⟩, ⟨isSepSpaceDash, 0, some 1⟩,
    ⟨Char.isDigit, 4, some 4⟩ ]

def ssnPat : List RToken :=
  [ ⟨Char.isDigit, 3, some 3⟩, ⟨(· = '-'), 1, some 1⟩,
    ⟨Char.isDigit, 2, some 2⟩, ⟨(· = '-'), 1, some 1⟩,
    ⟨Char.isDigit, 4, some 4⟩ ]

def phonePat : List RToken :=
  [ ⟨Char.isDigit, 3, some 3⟩, ⟨fun c => c = '-' || c = '.', 0, some 1⟩,
    ⟨Char.isDigit, 3, some 3⟩, ⟨fun c => c = '-' || c = '.', 0, some 1⟩,
    ⟨Char.isDigit, 4, some 4⟩ ]

def emailLocalChar (c : Char) : Bool :=
  c.isAlphanum || c = '.' || c = '_' || c = '%' || c = '+' || c = '-'

def emailDomainChar (c : Char) : Bool := c.isAlphanum || c = '.' || c = '-'

def emailTldChar (c : Char) : Bool := c.isAlpha || c = '|'

def emailPat : List RToken :=
  [ ⟨emailLocalChar, 1, none⟩, ⟨(· = '@'), 1, some 1⟩,
    ⟨emailDomainChar, 1, none⟩, ⟨(· = '.'), 1, some 1⟩,
    ⟨emailTldChar, 2, none⟩ ]

def PII_PATTERNS : List (String × List RToken) :=
  [ ("credit_card", creditCardPat), ("ssn", ssnPat),
    ("phone", phonePat), ("email", emailPat) ]

def OUTPUT_SAFE_RESPONSE : String :=
  "I apologize, but I cannot provide that information. "
    ++ "Is there something else about our products or services I can help you with?"

def checkOutput (enabled : Bool) (llmResponse : String) : GuardrailResult :=
  if !enabled then { passed := true, violations := [] }
  else
    let piiViolations := (PII_PATTERNS.filter (fun p => searchPat p.2 llmResponse)).map
      (fun p =>
        { layer := "post_llm", rule_type := "pii_detected", severity := "high",
          message := "Response contains " ++ p.1, blocked := true })
    let wordCount := (splitWs llmResponse).length
    let lengthViolations : List GuardrailViolation :=
      if 150 < wordCount then
        [{ layer := "post_llm", rule_type := "response_too_long", severity := "medium",
           message := "Response is " ++ toString wordCount ++ " words (max 150)",
           blocked := true }]
      else []
    let keywordViolations := (BLOCKED_KEYWORDS.filter
        (fun kw => subOf kw.data (toLowerStr llmResponse).data)).map
      (fun kw =>
        { layer := "post_llm", rule_type := "prohibited_content", severity := "high",
          message := "Response contains prohibited content: " ++ kw, blocked := true })
    let violations := piiViolations ++ lengthViolations ++ keywordViolations
    if violations = [] then { passed := true, violations := [] }
    else { passed := false, violations := violations,
           safe_response := some OUTPUT_SAFE_RESPONSE }

/-! ## Cost ledger (`backend/services/cost_tracker.py`)

`CostEntry.cost_usd` is a Python `Decimal`; both `Decimal` and `Rat` are
exact, so sums agree.  `get_session_summary` aggregates the entries returned
by `_get_session_entries`; with persistence disabled that is the in-process
buffer filtered by session id, which is the path modelled here (the Redis
path aggregates the same way over the mirrored entries).  Python dicts for
the breakdowns become association lists updated by `bumpA` (read with
default 0, add, write back). -/

structure CostEntry where
  service : String
  provider : String
  operation : String
  units : Int
  unit_type : String
  cost_usd : Rat
  timestamp : Nat
  session_id : Option String := none
  turn_id : Option String := none

deriving DecidableEq, Repr

structure CostSummary where
  total_cost_usd : Rat
  total_units : Int
  entries_count : Nat
  breakdown_by_service : List (String × Rat)
  breakdown_by_provider : List (String × Rat)
  start_time : Option Nat := none
  end_time : Option Nat := none

deriving DecidableEq, Repr

def bumpA (l : List (String × Rat)) (k : String) (v : Rat) : List (String × Rat) :=
  setA l k ((match lookupA l k with | some x => x | none => 0) + v)

def getSessionSummary (localEntries : List CostEntry) (sessionId : String) : CostSummary :=
  let entries := localEntries.filter (fun e => e.session_id = some sessionId)
  if entries = [] then
    { total_cost_usd := 0, total_units := 0, entries_count := 0,
      breakdown_by_service := [], breakdown_by_provider := [] }
  else
    { total_cost_usd := (entries.map (fun e => e.cost_usd)).sum
      total_units := (entries.map (fun e => e.units)).sum
      entries_count := entries.length
      breakdown_by_service := entries.foldl (fun acc e => bumpA acc e.service e.cost_usd) []
      breakdown_by_provider := entries.foldl (fun acc e => bumpA acc e.provider e.cost_usd) []
      start_time := (entries.map (fun e => e.timestamp)).min?
      end_time := (entries.map (fun e => e.timestamp)).max? }

def valsSum (l : List (String × Rat)) : Rat := (l.map (fun p => p.2)).sum

/-! ## Synthesis orchestration: voice resolution
(`backend/services/tts_service.py`, `backend/utils/voice_registry.py`)

The registry is a dict keyed `provider:voice_id`, iterated in insertion
(registration) order; it is modelled as the list of entries in that order
(keys are distinct in the built-in registry, so `find?` equals the dict
lookup).  `_resolve_voice` raises `ValueError("No available TTS voice …")`
— the spec's `NoVoiceAvailable` — modelled as the `Except.error` case. -/

structure VoiceEntry where
  provider : String
  voice_id : String
  languages : List String

deriving DecidableEq, Repr

def VoiceRegistry : Type := List VoiceEntry

instance : DecidableEq VoiceRegistry := by
  unfold VoiceRegistry
  infer_instance

def regGet (reg : VoiceRegistry) (provider voiceId : String) : Option VoiceEntry :=
  reg.find? (fun e => e.provider = provider ∧ e.voice_id = voiceId)

def voicesForLanguage (reg : VoiceRegistry) (provider languageCode : String) :
    List VoiceEntry :=
  reg.filter (fun e => e.provider = provider ∧ languageCode ∈ e.languages)

def findFallbackVoice (reg : VoiceRegistry) (languageCode : String) : Option VoiceEntry :=
  match voicesForLanguage reg "sarvam" languageCode with
  | c :: _ => some c
  | [] =>
    match voicesForLanguage reg "sarvam" "en-IN" with
    | c :: _ => some c
    | [] => none

structure ResolvedVoice where
  entry : VoiceEntry
  provider : String
  fallback_from_provider : Option String
  fallback_from_voice_id : Option String

deriving DecidableEq, Repr

def resolveVoice (reg : VoiceRegistry) (reqProvider reqVoiceId languageCode : String) :
    Except String ResolvedVoice :=
  let entryOk : Option VoiceEntry :=
    match regGet reg reqProvider reqVoiceId with
    | some e => if languageCode ∈ e.languages then some e else none
    | none => none
  match entryOk with
  | some e =>
    .ok { entry := e, provider := e.provider,
          fallback_from_provider := none, fallback_from_voice_id := none }
  | none =>
    match findFallbackVoice reg languageCode with
    | some f =>
      .ok { entry := f, provider := f.provider,
            fallback_from_provider := some reqProvider,
            fallback_from_voice_id := some reqVoiceId }
    | none => .error ("No available TTS voice for language " ++ languageCode ++ ".")

def INDIC_LANGS : List String :=
  ["hi-IN", "en-IN", "bn-IN", "gu-IN", "ta-IN", "te-IN", "ml-IN", "kn-IN", "mr-IN", "pa-IN"]

/-- The registry built at import time in `voice_registry.py`: seven Sarvam
voices followed by three ElevenLabs voices, in registration order. -/
def defaultRegistry : VoiceRegistry :=
  [ { provider := "sarvam", voice_id := "anushka", languages := INDIC_LANGS },
    { provider := "sarvam", voice_id := "abhilash", languages := INDIC_LANGS },
    { provider := "sarvam", voice_id := "manisha", languages := ["hi-IN", "en-IN"] },
    { provider := "sarvam", voice_id := "vidya", languages := ["ta-IN", "en-IN"] },
    { provider := "sarvam", voice_id := "arya", languages := ["bn-IN", "en-IN"] },
    { provider := "sarvam", voice_id := "karun", languages := ["ta-IN", "en-IN"] },
    { provider := "sarvam", voice_id := "hitesh", languages := ["gu-IN", "en-IN"] },
    { provider := "elevenlabs", voice_id := "rachel", languages := ["en-IN", "en-US"] },
    { provider := "elevenlabs", voice_id := "bella", languages := ["en-IN", "en-US"] },
    { provider := "elevenlabs", voice_id := "adam", languages := ["en-IN", "en-US"] } ]

/-! ## LLM service (`backend/services/llm_service.py`)

`_generate_internal` is embedded with the provider call abstracted to its
outcome (`modelOut`: the text of `data["choices"][0]["message"]["content"]`
after `_request_with_retry`, or a provider error) and token usage abstracted
to the reported total.  The four `op.check_or_raise()` checkpoints appear as
the booleans `ck1..ck4` (all false when no interrupt manager / ids are
supplied, in which case the source skips the checks); the additional check
inside the retry loop coincides with `ck3` here.  A missing `llm_cache`
behaves exactly like `Conn.unconfigured` (reads miss, writes no-op), so one
`Conn` parameter covers both.  Prompt assembly (system prompt, layer-2
guardrail text, RAG context, temperature, max_tokens) only shapes the
provider payload and is not observable in the cache or the returned flags;
cost tracking appends to the cost ledger and is covered by §cost. -/

structure GuardrailFlags where
  safe : Bool := true
  reason : Option String := none
  post_checked : Bool := false

deriving DecidableEq, Repr

structure LLMResponse where
  text : String
  guardrail_flags : GuardrailFlags
  total_tokens : Nat

deriving DecidableEq, Repr

inductive GenError
  | interruptedE
  | providerE (msg : String)
  | cacheE (e : ConnError)

deriving DecidableEq, Repr

def getCacheTtl (optimizationLevel : String) : Nat :=
  match lookupA
      [("quality", 3600), ("balanced_quality", 2400), ("balanced", 1800),
       ("balanced_speed", 1200), ("speed", 600)] optimizationLevel with
  | some t => t
  | none => 1800

def cachedHitResponse (cached : CachedLLMResponse) : LLMResponse :=
  { text := cached.response_text,
    guardrail_flags := { safe := cached.guardrail_safe, reason := none, post_checked := true },
    total_tokens := cached.token_count }

def blockedInputResponse (inputCheck : GuardrailResult) : LLMResponse :=
  { text := inputCheck.safe_response.getD "I cannot process this request.",
    guardrail_flags :=
      { safe := false,
        reason := some ((inputCheck.violations.head?).elim "Blocked" (fun v => v.message)),
        post_checked := false },
    total_tokens := 0 }

def blockedOutputResponse (outputCheck : GuardrailResult) (usage : Nat) : LLMResponse :=
  { text := outputCheck.safe_response.getD "I cannot provide that information.",
    guardrail_flags :=
      { safe := false,
        reason := some ((outputCheck.violations.head?).elim "Blocked" (fun v => v.message)),
        post_checked := true },
    total_tokens := usage }

def generateInternal (conn : Conn LLMStore) (guardrailEnabled : Bool)
    (transcript optLevel : String) (modelOut : Except String String) (usage : Nat)
    (ck1 ck2 ck3 ck4 : Bool) : Except GenError (LLMResponse × Conn LLMStore) :=
  if ck1 then .error .interruptedE
  else
    match getExact conn transcript optLevel with
    | .error e => .error (.cacheE e)
    | .ok (some cached) => .ok (cachedHitResponse cached, conn)
    | .ok none =>
      match getSemantic conn transcript optLevel (mkRat 7 10) with
      | .error e => .error (.cacheE e)
      | .ok (some cached) => .ok (cachedHitResponse cached, conn)
      | .ok none =>
        if ck2 then .error .interruptedE
        else
          let inputCheck := checkInput guardrailEnabled transcript
          if inputCheck.passed then
            if ck3 then .error .interruptedE
            else
              match modelOut with
              | .error m => .error (.providerE m)
              | .ok text =>
                if ck4 then .error .interruptedE
                else
                  let outputCheck := checkOutput guardrailEnabled text
                  if outputCheck.passed then
                    match llmSet conn transcript
                        { response_text := text,
                          query_hash := hashQuery transcript optLevel,
                          guardrail_safe := true, token_count := usage,
                          optimization_level := optLevel }
                        (some (getCacheTtl optLevel)) with
                    | .error e => .error (.cacheE e)
                    | .ok conn' =>
                      .ok ({ text := text,
                             guardrail_flags :=
                               { safe := true, reason := none, post_checked := true },
                             total_tokens := usage }, conn')
                  else .ok (blockedOutputResponse outputCheck usage, conn)
          else .ok (blockedInputResponse inputCheck, conn)

def lookupExact : Conn LLMStore → String → Option CachedLLMResponse
  | .ok s, k => lookupA s.exactEntries k
  | _, _ => none

def lookupSemantic : Conn LLMStore → String → Option CachedLLMResponse
  | .ok s, k => lookupA s.semanticEntries k
  | _, _ => none

/-! ## Theorems

All definitions above mirror the source; the theorems below settle the
claims (with their helper lemmas and witnesses). -/

theorem lookupA_setA_self {κ α : Type} [DecidableEq κ] (l : List (κ × α)) (k : κ) (v : α) :
    lookupA (setA l k v) k = some v := by
  induction l with
  | nil => simp [setA, lookupA]
  | cons hd t ih =>
    by_cases h : hd.1 = k
    · simp [setA, h, lookupA]
    · simp [setA, h, lookupA, ih]

theorem lookupA_setA_ne {κ α : Type} [DecidableEq κ] (l : List (κ × α)) (k k' : κ) (v : α)
    (h : k' ≠ k) : lookupA (setA l k v) k' = lookupA l k' := by
  induction l with
  | nil =>
    simp only [setA, lookupA]
    rw [if_neg (Ne.symm h)]
  | cons hd t ih =>
    obtain ⟨k0, v0⟩ := hd
    simp only [setA]
    by_cases hk : k0 = k
    · subst hk
      simp only [if_pos rfl, lookupA]
      rw [if_neg (Ne.symm h), if_neg (Ne.symm h)]
    · simp only [if_neg hk, lookupA]
      by_cases hk' : k0 = k'
      · simp [if_pos hk']
      · simp [if_neg hk', ih]

theorem lookupA_eraseA_self {κ α : Type} [DecidableEq κ] (l : List (κ × α)) (k : κ) :
    lookupA (eraseA l k) k = none := by
  induction l with
  | nil => simp [eraseA, lookupA]
  | cons hd t ih =>
    by_cases h : hd.1 = k
    · simpa [eraseA, h] using ih
    · simpa [eraseA, h, lookupA] using ih

theorem runCleanups_eq (cbs : List (String × Bool)) : runCleanups cbs = cbs := by
  induction cbs with
  | nil => rfl
  | cons cb rest ih => simp [runCleanups, ih]

theorem getState_setA_self (st : IMState) (sid tid : String) (s : InterruptState) :
    getState (setA st (sid, tid) s) sid tid = some s :=
  lookupA_setA_self st (sid, tid) s

/-- C1: the claim says `finish_turn` runs exactly once per opened turn on every
exit path, so no active turn ever leaks.  The code slips on one input: with a
provided `turn_id = ""` the turn is opened (`start_turn` only replaces `None`),
but the cleanup guard `if session_id and turn_id` treats the empty string as
falsy, so `finish_turn` is never called and the pair `("s", "")` stays in the
active-turn set. -/
theorem processAudio_empty_turnId_leaks_turn :
    (processAudio [] (some "s") (some "") "0" (.ok "hello") (.ok "hi")
        (.ok "bonjour") (.ok "AUDIO") (.ok ())).finishCalls = 0
    ∧ getState (processAudio [] (some "s") (some "") "0" (.ok "hello") (.ok "hi")
        (.ok "bonjour") (.ok "AUDIO") (.ok ())).manager "s" "" = some {} := by
  constructor <;> rfl

/-- C2: `interrupt` is idempotent — a second interrupt of the same pair leaves
the manager state unchanged and runs no cleanups (so the recorded event stays
that of the first call); interrupting an unknown pair is a pure no-op; and on
first interruption every registered cleanup runs, in registration order,
including the ones that raise (the source catches each failure and continues),
and the event records the first call's reason, timestamp and stage. -/
theorem interrupt_unknown (st : IMState) (sid tid : String) (r : InterruptReason)
    (g : Option String) (t : Nat) (h : getState st sid tid = none) :
    interrupt st sid tid r g t = (st, []) := by
  simp [interrupt, h]

theorem interrupt_already (st : IMState) (sid tid : String) (r : InterruptReason)
    (g : Option String) (t : Nat) (s : InterruptState) (h : getState st sid tid = some s)
    (hi : s.interrupted = true) : interrupt st sid tid r g t = (st, []) := by
  simp [interrupt, h, hi]

theorem interrupt_first (st : IMState) (sid tid : String) (r : InterruptReason)
    (g : Option String) (t : Nat) (s : InterruptState) (h : getState st sid tid = some s)
    (hi : s.interrupted = false) :
    interrupt st sid tid r g t
      = (setA st (sid, tid)
          { s with interrupted := true
                   event := some { sessionId := sid, turnId := tid, reason := r,
                                   timestamp := t, stage := g } },
         s.cleanupCallbacks) := by
  simp [interrupt, h, hi, runCleanups_eq]

theorem interrupt_idempotent_noop_and_cleanup_order :
    ∀ (st : IMState) (sid tid : String) (r1 r2 : InterruptReason)
      (g1 g2 : Option String) (t1 t2 : Nat),
      interrupt (interrupt st sid tid r1 g1 t1).1 sid tid r2 g2 t2
          = ((interrupt st sid tid r1 g1 t1).1, [])
      ∧ (getState st sid tid = none → interrupt st sid tid r1 g1 t1 = (st, []))
      ∧ (∀ s, getState st sid tid = some s → s.interrupted = false →
          (interrupt st sid tid r1 g1 t1).2 = s.cleanupCallbacks
          ∧ getInterruptEvent (interrupt st sid tid r1 g1 t1).1 sid tid
              = some { sessionId := sid, turnId := tid, reason := r1,
                       timestamp := t1, stage := g1 }) := by
  intro st sid tid r1 r2 g1 g2 t1 t2
  refine ⟨?_, fun hn => interrupt_unknown st sid tid r1 g1 t1 hn, fun s hs hi => ?_⟩
  · cases h : getState st sid tid with
    | none =>
      rw [interrupt_unknown st sid tid r1 g1 t1 h]
      exact interrupt_unknown st sid tid r2 g2 t2 h
    | some s =>
      by_cases hi : s.interrupted = true
      · rw [interrupt_already st sid tid r1 g1 t1 s h hi]
        exact interrupt_already st sid tid r2 g2 t2 s h hi
      · rw [interrupt_first st sid tid r1 g1 t1 s h (Bool.eq_false_iff.mpr hi)]
        exact interrupt_already _ sid tid r2 g2 t2 _ (getState_setA_self _ _ _ _) rfl
  · rw [interrupt_first st sid tid r1 g1 t1 s hs hi]
    exact ⟨rfl, by simp [getInterruptEvent, getState_setA_self]⟩

/-- Witness for C2 at a concrete manager state: an active turn with three
cleanups, the middle one failing; all three are reported as run, in order,
and the event records the first call's data. -/
theorem interrupt_idempotent_witness :
    getState [(("s", "t"),
        ({ cleanupCallbacks := [("a", true), ("b", false), ("c", true)] } : InterruptState))]
        "s" "t"
      = some { cleanupCallbacks := [("a", true), ("b", false), ("c", true)] }
    ∧ ({ cleanupCallbacks := [("a", true), ("b", false), ("c", true)] }
          : InterruptState).interrupted = false
    ∧ ((interrupt [(("s", "t"),
          ({ cleanupCallbacks := [("a", true), ("b", false), ("c", true)] } : InterruptState))]
          "s" "t" .userBargeIn (some "llm") 5).2
        = [("a", true), ("b", false), ("c", true)]
      ∧ getInterruptEvent (interrupt [(("s", "t"),
          ({ cleanupCallbacks := [("a", true), ("b", false), ("c", true)] } : InterruptState))]
          "s" "t" .userBargeIn (some "llm") 5).1 "s" "t"
        = some { sessionId := "s", turnId := "t", reason := .userBargeIn,
                 timestamp := 5, stage := some "llm" }) :=
  ⟨rfl, rfl,
    (interrupt_idempotent_noop_and_cleanup_order
        [(("s", "t"),
          ({ cleanupCallbacks := [("a", true), ("b", false), ("c", true)] } : InterruptState))]
        "s" "t" .userBargeIn .manual (some "llm") none 5 9).2.2
      { cleanupCallbacks := [("a", true), ("b", false), ("c", true)] } rfl rfl⟩

/-- C3 (counterexample): the claim says `start_turn` fails with `DuplicateTurn`
when the pair is already active.  The code has no duplicate check: starting
`("s", "t")` twice succeeds both times, silently re-registering the pair with a
fresh state, while the spec-modelled version signals `DuplicateTurn`. -/
theorem startTurn_no_duplicate_check :
    (getState (startTurn [] "s" (some "t") "0").2 "s" "t").isSome = true
    ∧ startTurn (startTurn [] "s" (some "t") "0").2 "s" (some "t") "1"
        = ("t", (startTurn [] "s" (some "t") "0").2)
    ∧ startTurnSpec (startTurn [] "s" (some "t") "0").2 "s" (some "t") "1"
        = .error "DuplicateTurn" := by
  refine ⟨rfl, rfl, rfl⟩

/-- C3 (amended): `start_turn` never fails.  It returns the provided id (or
`session_id ++ "_" ++ timestamp` when none is provided), registers the pair
with a fresh interrupt state — replacing any state the pair already had — and
leaves every other pair untouched. -/
theorem startTurn_total_registration :
    ∀ (st : IMState) (sid : String) (turnId? : Option String) (nowTs : String),
      (startTurn st sid turnId? nowTs).1
          = (match turnId? with | some t => t | none => sid ++ "_" ++ nowTs)
      ∧ getState (startTurn st sid turnId? nowTs).2 sid (startTurn st sid turnId? nowTs).1
          = some {}
      ∧ ∀ sid' tid', (sid', tid') ≠ (sid, (startTurn st sid turnId? nowTs).1) →
          getState (startTurn st sid turnId? nowTs).2 sid' tid' = getState st sid' tid' := by
  intro st sid turnId? nowTs
  refine ⟨?_, ?_, ?_⟩
  · cases turnId? <;> rfl
  · cases turnId? <;> exact getState_setA_self _ _ _ _
  · intro sid' tid' hne
    cases turnId? <;> exact lookupA_setA_ne st _ _ _ hne

/-- Witness for C3's amended theorem at concrete input: registering
`("s", "t")` leaves the unrelated pair `("x", "y")` untouched. -/
theorem startTurn_total_registration_witness :
    (("x", "y") : String × String) ≠ ("s", "t")
    ∧ getState (startTurn [] "s" (some "t") "0").2 "x" "y" = getState ([] : IMState) "x" "y" :=
  ⟨by decide, (startTurn_total_registration [] "s" (some "t") "0").2.2 "x" "y" (by decide)⟩

/-- C10: `is_interrupted` returns `false` for every pair not in the
active-turn set — both pairs never started and pairs already removed by
`finish_turn`, even if they were interrupted while active.  (It is a pure read
of the state: the embedding returns only a `Bool`, mirroring that the source
neither raises nor mutates.) -/
theorem isInterrupted_inactive_false :
    ∀ (st : IMState) (sid tid : String),
      (getState st sid tid = none → isInterrupted st sid tid = false)
      ∧ isInterrupted (finishTurn st sid tid) sid tid = false := by
  intro st sid tid
  constructor
  · intro h
    simp [isInterrupted, h]
  · simp [isInterrupted, finishTurn, getState, lookupA_eraseA_self]

/-- Witness for C10 at concrete input: the empty manager has no state for
`("s", "t")` and reports it not interrupted; the same holds after finishing an
interrupted turn. -/
theorem isInterrupted_inactive_false_witness :
    getState ([] : IMState) "s" "t" = none
    ∧ isInterrupted ([] : IMState) "s" "t" = false
    ∧ isInterrupted
        (finishTurn (interrupt [(("s", "t"), ({} : InterruptState))]
          "s" "t" .userBargeIn none 3).1 "s" "t") "s" "t" = false :=
  ⟨rfl, (isInterrupted_inactive_false [] "s" "t").1 rfl,
    (isInterrupted_inactive_false
      (interrupt [(("s", "t"), ({} : InterruptState))] "s" "t" .userBargeIn none 3).1
      "s" "t").2⟩

theorem calculateSimilarity_nonneg (q1 q2 : String) : 0 ≤ calculateSimilarity q1 q2 := by
  simp only [calculateSimilarity]
  split
  · exact le_refl 0
  · rw [Rat.mkRat_eq_div]
    positivity

theorem maxSimilarity_cons (normq c : String) (rest : List String) :
    maxSimilarity normq (c :: rest)
      = max (calculateSimilarity normq c) (maxSimilarity normq rest) := rfl

theorem bestLoop_eq (normq : String) (thr : Rat) :
    ∀ (cands : List String) (bs : Rat) (bm : Option String), 0 ≤ bs →
      bestLoop normq thr cands bs bm
        = if bs < maxSimilarity normq cands ∧ thr ≤ maxSimilarity normq cands then
            cands.find? (fun c => calculateSimilarity normq c = maxSimilarity normq cands)
          else bm := by
  intro cands
  induction cands with
  | nil =>
    intro bs bm hbs
    have h0 : maxSimilarity normq [] = 0 := rfl
    rw [bestLoop, h0, if_neg]
    rintro ⟨h1, -⟩
    exact absurd h1 (not_lt.mpr hbs)
  | cons c rest ih =>
    intro bs bm hbs
    have hM : maxSimilarity normq (c :: rest)
        = max (calculateSimilarity normq c) (maxSimilarity normq rest) := rfl
    simp only [bestLoop]
    by_cases hc : bs < calculateSimilarity normq c ∧ thr ≤ calculateSimilarity normq c
    · rw [if_pos hc, ih _ _ (calculateSimilarity_nonneg normq c)]
      have hcondR : bs < maxSimilarity normq (c :: rest)
          ∧ thr ≤ maxSimilarity normq (c :: rest) := by
        rw [hM]
        exact ⟨lt_of_lt_of_le hc.1 (le_max_left _ _),
               le_trans hc.2 (le_max_left _ _)⟩
      rw [if_pos hcondR]
      by_cases h2 : calculateSimilarity normq c < maxSimilarity normq rest
      · have hmax : maxSimilarity normq (c :: rest) = maxSimilarity normq rest := by
          rw [hM]
          exact max_eq_right h2.le
        rw [if_pos ⟨h2, le_trans hc.2 h2.le⟩]
        rw [List.find?_cons_of_neg, hmax]
        simp only [hmax, decide_eq_true_eq]
        exact ne_of_lt h2
      · push_neg at h2
        have hmax : maxSimilarity normq (c :: rest) = calculateSimilarity normq c := by
          rw [hM]
          exact max_eq_left h2
        rw [if_neg (fun hcon => absurd hcon.1 (not_lt.mpr h2))]
        rw [List.find?_cons_of_pos]
        simp only [hmax, decide_eq_true_eq]
    · rw [if_neg hc, ih _ _ hbs]
      push_neg at hc
      by_cases hcond : bs < maxSimilarity normq rest ∧ thr ≤ maxSimilarity normq rest
      · have hsm : calculateSimilarity normq c < maxSimilarity normq rest := by
          by_cases hbssim : bs < calculateSimilarity normq c
          · exact lt_of_lt_of_le (hc hbssim) hcond.2
          · exact lt_of_le_of_lt (not_lt.mp hbssim) hcond.1
        have hmax : maxSimilarity normq (c :: rest) = maxSimilarity normq rest := by
          rw [hM]
          exact max_eq_right hsm.le
        rw [if_pos hcond, if_pos (by rw [hmax]; exact hcond)]
        rw [List.find?_cons_of_neg, hmax]
        simp only [hmax, decide_eq_true_eq]
        exact ne_of_lt hsm
      · rw [if_neg hcond, if_neg]
        intro hR
        rcases le_total (calculateSimilarity normq c) (maxSimilarity normq rest) with h | h
        · rw [hM, max_eq_right h] at hR
          exact hcond hR
        · rw [hM, max_eq_left h] at hR
          have h1 : bs < calculateSimilarity normq c := hR.1
          have h2 : calculateSimilarity normq c < thr := hc h1
          exact absurd hR.2 (not_le.mpr h2)

theorem bestLoop_specBest (normq : String) (thr : Rat) (hthr : 0 < thr)
    (cands : List String) :
    bestLoop normq thr cands 0 none = specBest normq thr cands := by
  rw [bestLoop_eq normq thr cands 0 none le_rfl, specBest]
  by_cases h : thr ≤ maxSimilarity normq cands
  · rw [if_pos h, if_pos ⟨lt_of_lt_of_le hthr h, h⟩]
  · rw [if_neg h, if_neg (fun hh => h hh.2)]

/-- C4 (counterexample): with threshold 0, the query "a" and a single indexed
candidate "b" whose semantic entry is cached, the candidate's word-set Jaccard
similarity is 0, which is at-or-above the threshold, so the claim says the
cached entry is returned; but the source's running-maximum update requires
`similarity > best_similarity` with `best_similarity` starting at 0.0, so no
candidate is ever selected and `get_semantic` returns none. -/
theorem getSemantic_zero_threshold_counterexample :
    calculateSimilarity (normalizeQuery "a") "b" = 0
    ∧ (0 : Rat) ≤ calculateSimilarity (normalizeQuery "a") "b"
    ∧ lookupA [("llm:semantic:b",
        ({ response_text := "resp", query_hash := "b:quality", guardrail_safe := true,
           token_count := 1, optimization_level := "quality" } : CachedLLMResponse))]
        "llm:semantic:b"
      = some { response_text := "resp", query_hash := "b:quality", guardrail_safe := true,
               token_count := 1, optimization_level := "quality" }
    ∧ getSemantic (.ok { exactEntries := [],
                         semanticEntries := [("llm:semantic:b",
                           { response_text := "resp", query_hash := "b:quality",
                             guardrail_safe := true, token_count := 1,
                             optimization_level := "quality" })],
                         queryIndex := ["b"] }) "a" "quality" 0
      = .ok none := by
  refine ⟨by decide, by decide, rfl, by decide⟩

/-- C4 (amended): `get_semantic` returns none for every level other than
quality and balanced_quality (whatever the store state, even one holding the
identical normalized query cached under quality); for those two levels, and
any *positive* threshold, it considers only the 100 most recent indexed
queries and returns the stored entry of the highest-scoring candidate (by
word-set Jaccard similarity against the normalized query) at or above the
threshold, ties broken in favour of the more recent candidate, or none when
no candidate reaches the threshold.  (A threshold of zero additionally
requires strictly positive similarity — see the counterexample.) -/
theorem getSemantic_characterization :
    ∀ (s : LLMStore) (query level : String) (thr : Rat),
      (level ∉ ["quality", "balanced_quality"] →
        ∀ conn, getSemantic conn query level thr = .ok none)
      ∧ (0 < thr → level ∈ ["quality", "balanced_quality"] →
          getSemantic (.ok s) query level thr
            = .ok ((specBest (normalizeQuery query) thr (s.queryIndex.take 100)).bind
                (fun c => lookupA s.semanticEntries ("llm:semantic:" ++ c)))) := by
  intro s query level thr
  constructor
  · intro hlev conn
    simp [getSemantic, hlev]
  · intro hthr hlev
    simp only [getSemantic, if_pos hlev]
    rw [bestLoop_specBest _ thr hthr]
    cases specBest (normalizeQuery query) thr (s.queryIndex.take 100) <;> simp

/-- Witness for C4's amended theorem at concrete inputs: the speed level
misses regardless of the store, and a quality-level lookup agrees with the
spec's selection rule. -/
theorem getSemantic_characterization_witness :
    getSemantic (Conn.ok { exactEntries := [], semanticEntries := [], queryIndex := [] }) "q" "speed"
        (7 / 10) = .ok none
    ∧ getSemantic (Conn.ok { exactEntries := [], semanticEntries := [], queryIndex := [] }) "q" "quality"
        (7 / 10)
      = .ok ((specBest (normalizeQuery "q") (7 / 10)
            ((({ exactEntries := [], semanticEntries := [], queryIndex := [] } : LLMStore)).queryIndex.take
              100)).bind
          (fun c =>
            lookupA ({ exactEntries := [], semanticEntries := [], queryIndex := [] } : LLMStore).semanticEntries
              ("llm:semantic:" ++ c))) :=
  ⟨(getSemantic_characterization { exactEntries := [], semanticEntries := [], queryIndex := [] }
      "q" "speed" (7 / 10)).1 (by decide) _,
   (getSemantic_characterization { exactEntries := [], semanticEntries := [], queryIndex := [] }
      "q" "quality" (7 / 10)).2 (by norm_num) (by decide)⟩

/-- C5 (counterexample): when the store is configured but unreachable, the
source only catches `CacheNotConfiguredError`, so the redis client's
connection error propagates out of every method that touches the store — the
caller does see a cache-unavailability error, contradicting the claim that
every method degrades to a silent miss. -/
theorem cache_unreachable_raises :
    ttsGet .unreachable "k" = .error .connectionError
    ∧ getExact .unreachable "q" "balanced" = .error .connectionError
    ∧ getSemantic .unreachable "q" "quality" (7 / 10) = .error .connectionError
    ∧ ttsSet .unreachable "k"
        { audio_b64 := "QQ==", codec := "wav", sample_rate_hz := 22050 } none
      = .error .connectionError
    ∧ llmSet .unreachable "q"
        { response_text := "r", query_hash := "h", guardrail_safe := true,
          token_count := 1, optimization_level := "balanced" } none
      = .error .connectionError := by
  exact ⟨rfl, rfl, rfl, rfl, rfl⟩

/-- C5 (amended): when the backing store is UNCONFIGURED, every cache method
degrades to a silent miss — each read returns none, each write is a no-op,
and no error is surfaced.  (A configured but unreachable store instead lets
the connection error propagate; see the counterexample.) -/
theorem cache_unconfigured_silent_miss :
    ∀ (key query level : String) (thr : Rat) (a : CachedAudio) (r : CachedLLMResponse)
      (ttl : Option Nat),
      ttsGet .unconfigured key = .ok none
      ∧ ttsSet .unconfigured key a ttl = .ok .unconfigured
      ∧ getExact .unconfigured query level = .ok none
      ∧ getSemantic .unconfigured query level thr = .ok none
      ∧ llmSet .unconfigured query r ttl = .ok .unconfigured := by
  intro key query level thr a r ttl
  refine ⟨rfl, rfl, rfl, ?_, rfl⟩
  by_cases h : level ∈ ["quality", "balanced_quality"]
  · simp [getSemantic, h]
  · simp [getSemantic, h]

/-- C7 (counterexample): the deny-list entry is "how to make bomb" — without
the article — and that phrase is not a substring of "how to make a bomb", nor
is any other deny-list phrase, so `check_input` passes an input containing
the phrase "how to make a bomb" instead of blocking it. -/
theorem checkInput_bomb_with_article_passes :
    "how to make bomb" ∈ BLOCKED_KEYWORDS
    ∧ subOf "how to make bomb".data (toLowerStr "how to make a bomb").data = false
    ∧ (checkInput true "how to make a bomb").passed = true
    ∧ (checkInput true "how to make a bomb").violations = [] := by
  refine ⟨by decide, by decide, by decide, by decide⟩

/-- C7 (amended): with guardrails enabled, `check_input` returns
`passed = false` exactly when some deny-list phrase is a substring of the
lowercased input (e.g. "how to make bomb"; the list has no phrase occurring
in "how to make a bomb"), collecting one violation per matched phrase and a
non-empty safe response; with no match it passes with no violations. -/
theorem checkInput_denylist_characterization :
    ∀ input : String,
      ((checkInput true input).passed = false
        ↔ ∃ kw ∈ BLOCKED_KEYWORDS, subOf kw.data (toLowerStr input).data = true)
      ∧ (checkInput true input).violations.length
          = (BLOCKED_KEYWORDS.filter
              (fun kw => subOf kw.data (toLowerStr input).data)).length
      ∧ ((checkInput true input).passed = false →
          (checkInput true input).safe_response = some INPUT_SAFE_RESPONSE
          ∧ INPUT_SAFE_RESPONSE ≠ "")
      ∧ ((checkInput true input).passed = true → (checkInput true input).violations = []) := by
  intro input
  by_cases h :
      (BLOCKED_KEYWORDS.filter (fun kw => subOf kw.data (toLowerStr input).data)) = []
  · have hc : checkInput true input = { passed := true, violations := [] } := by
      simp only [checkInput, Bool.not_true, if_false, List.map_eq_nil_iff]
      rw [if_pos h]
      simp
    rw [hc]
    refine ⟨?_, ?_, ?_, fun _ => rfl⟩
    · simp only [show (true = false) = False by simp, false_iff]
      rintro ⟨kw, hmem, hsub⟩
      have := (List.filter_eq_nil_iff.mp h) kw hmem
      simp [hsub] at this
    · simp [h]
    · intro hcontra
      cases hcontra
  · have hc : checkInput true input
        = { passed := false,
            violations := (BLOCKED_KEYWORDS.filter
                (fun kw => subOf kw.data (toLowerStr input).data)).map
              (fun kw =>
                { layer := "pre_llm", rule_type := "blocked_keyword", severity := "high",
                  message := "Input contains blocked keyword: " ++ kw, blocked := true }),
            safe_response := some INPUT_SAFE_RESPONSE } := by
      simp only [checkInput, Bool.not_true, if_false, List.map_eq_nil_iff]
      rw [if_neg h]
      simp
    rw [hc]
    refine ⟨?_, by simp, fun _ => ⟨rfl, by decide⟩, ?_⟩
    · simp only [true_iff]
      obtain ⟨kw, hkw⟩ := List.exists_mem_of_ne_nil _ h
      exact ⟨kw, (List.mem_filter.mp hkw).1, (List.mem_filter.mp hkw).2⟩
    · intro hcontra
      cases hcontra

/-- Witness for C7's amended theorem at concrete inputs: "how to make bomb"
is blocked with the non-empty safe response, "hello" passes with no
violations. -/
theorem checkInput_denylist_witness :
    (checkInput true "how to make bomb").passed = false
    ∧ (checkInput true "how to make bomb").safe_response = some INPUT_SAFE_RESPONSE
    ∧ INPUT_SAFE_RESPONSE ≠ ""
    ∧ (checkInput true "hello").passed = true
    ∧ (checkInput true "hello").violations = [] :=
  ⟨by decide,
   ((checkInput_denylist_characterization "how to make bomb").2.2.1 (by decide)).1,
   ((checkInput_denylist_characterization "how to make bomb").2.2.1 (by decide)).2,
   by decide,
   (checkInput_denylist_characterization "hello").2.2.2 (by decide)⟩

theorem valsSum_bumpA (l : List (String × Rat)) (k : String) (v : Rat) :
    valsSum (bumpA l k v) = valsSum l + v := by
  induction l with
  | nil => simp [bumpA, setA, lookupA, valsSum]
  | cons hd t ih =>
    obtain ⟨k0, v0⟩ := hd
    by_cases hk : k0 = k
    · subst hk
      simp [bumpA, setA, lookupA, valsSum]
      ring
    · have hstep : bumpA ((k0, v0) :: t) k v = (k0, v0) :: bumpA t k v := by
        simp [bumpA, setA, lookupA, hk]
      rw [hstep]
      simp only [valsSum, List.map_cons, List.sum_cons] at ih ⊢
      rw [ih]
      ring

theorem valsSum_foldl_bumpA (key : CostEntry → String) :
    ∀ (entries : List CostEntry) (acc : List (String × Rat)),
      valsSum (entries.foldl (fun a e => bumpA a (key e) e.cost_usd) acc)
        = valsSum acc + (entries.map (fun e => e.cost_usd)).sum := by
  intro entries
  induction entries with
  | nil => intro acc; simp
  | cons e rest ih =>
    intro acc
    simp only [List.foldl_cons, List.map_cons, List.sum_cons]
    rw [ih, valsSum_bumpA]
    ring

/-- C6: the session summary's total is the exact sum of the `cost_usd` values
of the session's entries (`Decimal` arithmetic is exact, modelled by `Rat`),
the per-service and per-provider breakdown values each sum to that same
total, the total units are the sum of the entries' units, and a session with
no entries yields the zero summary with empty breakdowns. -/
theorem getSessionSummary_additive :
    ∀ (localEntries : List CostEntry) (sessionId : String),
      (getSessionSummary localEntries sessionId).total_cost_usd
          = ((localEntries.filter (fun e => e.session_id = some sessionId)).map
              (fun e => e.cost_usd)).sum
      ∧ valsSum (getSessionSummary localEntries sessionId).breakdown_by_service
          = (getSessionSummary localEntries sessionId).total_cost_usd
      ∧ valsSum (getSessionSummary localEntries sessionId).breakdown_by_provider
          = (getSessionSummary localEntries sessionId).total_cost_usd
      ∧ (getSessionSummary localEntries sessionId).total_units
          = ((localEntries.filter (fun e => e.session_id = some sessionId)).map
              (fun e => e.units)).sum
      ∧ (localEntries.filter (fun e => e.session_id = some sessionId) = [] →
          getSessionSummary localEntries sessionId
            = { total_cost_usd := 0, total_units := 0, entries_count := 0,
                breakdown_by_service := [], breakdown_by_provider := [] }) := by
  intro localEntries sessionId
  by_cases h : localEntries.filter (fun e => e.session_id = some sessionId) = []
  · have hz : getSessionSummary localEntries sessionId
        = { total_cost_usd := 0, total_units := 0, entries_count := 0,
            breakdown_by_service := [], breakdown_by_provider := [] } := by
      simp only [getSessionSummary]
      rw [if_pos h]
    rw [hz, h]
    exact ⟨by simp, by simp [valsSum], by simp [valsSum], by simp, fun _ => rfl⟩
  · have hs : getSessionSummary localEntries sessionId
        = { total_cost_usd := ((localEntries.filter
              (fun e => e.session_id = some sessionId)).map (fun e => e.cost_usd)).sum
            total_units := ((localEntries.filter
              (fun e => e.session_id = some sessionId)).map (fun e => e.units)).sum
            entries_count := (localEntries.filter
              (fun e => e.session_id = some sessionId)).length
            breakdown_by_service := (localEntries.filter
              (fun e => e.session_id = some sessionId)).foldl
                (fun acc e => bumpA acc e.service e.cost_usd) []
            breakdown_by_provider := (localEntries.filter
              (fun e => e.session_id = some sessionId)).foldl
                (fun acc e => bumpA acc e.provider e.cost_usd) []
            start_time := ((localEntries.filter
              (fun e => e.session_id = some sessionId)).map (fun e => e.timestamp)).min?
            end_time := ((localEntries.filter
              (fun e => e.session_id = some sessionId)).map (fun e => e.timestamp)).max? } := by
      simp only [getSessionSummary]
      rw [if_neg h]
    rw [hs]
    refine ⟨rfl, ?_, ?_, rfl, fun hcontra => absurd hcontra h⟩
    · rw [valsSum_foldl_bumpA (fun e => e.service)]
      simp [valsSum]
    · rw [valsSum_foldl_bumpA (fun e => e.provider)]
      simp [valsSum]

/-- Witness for C6 at concrete input: for two entries attributed to session
"s" (plus one for another session) the summary total equals the sum of the
filtered costs, and the empty session yields the zero summary. -/
theorem getSessionSummary_additive_witness :
    (getSessionSummary
        [ { service := "asr", provider := "sarvam", operation := "transcribe",
            units := 1500, unit_type := "audio_ms", cost_usd := mkRat 3 20000,
            timestamp := 1, session_id := some "s" },
          { service := "llm", provider := "openai", operation := "generate",
            units := 100, unit_type := "tokens", cost_usd := mkRat 1 1000,
            timestamp := 2, session_id := some "s" },
          { service := "tts", provider := "sarvam", operation := "synthesize",
            units := 40, unit_type := "characters", cost_usd := mkRat 6 10000,
            timestamp := 3, session_id := some "other" } ] "s").total_cost_usd
      = ((([ { service := "asr", provider := "sarvam", operation := "transcribe",
               units := 1500, unit_type := "audio_ms", cost_usd := mkRat 3 20000,
               timestamp := 1, session_id := some "s" },
             { service := "llm", provider := "openai", operation := "generate",
               units := 100, unit_type := "tokens", cost_usd := mkRat 1 1000,
               timestamp := 2, session_id := some "s" },
             { service := "tts", provider := "sarvam", operation := "synthesize",
               units := 40, unit_type := "characters", cost_usd := mkRat 6 10000,
               timestamp := 3, session_id := some "other" } ] : List CostEntry).filter
          (fun e => e.session_id = some "s")).map (fun e => e.cost_usd)).sum
    ∧ ([] : List CostEntry).filter (fun e => e.session_id = some "s") = []
    ∧ getSessionSummary [] "s"
        = { total_cost_usd := 0, total_units := 0, entries_count := 0,
            breakdown_by_service := [], breakdown_by_provider := [] } :=
  ⟨(getSessionSummary_additive
      [ { service := "asr", provider := "sarvam", operation := "transcribe",
          units := 1500, unit_type := "audio_ms", cost_usd := mkRat 3 20000,
          timestamp := 1, session_id := some "s" },
        { service := "llm", provider := "openai", operation := "generate",
          units := 100, unit_type := "tokens", cost_usd := mkRat 1 1000,
          timestamp := 2, session_id := some "s" },
        { service := "tts", provider := "sarvam", operation := "synthesize",
          units := 40, unit_type := "characters", cost_usd := mkRat 6 10000,
          timestamp := 3, session_id := some "other" } ] "s").1,
   rfl, (getSessionSummary_additive [] "s").2.2.2.2 rfl⟩

/-- C8 (counterexample): request (sarvam, anushka) for language "en-US" in the
built-in registry.  Voices supporting "en-US" exist (elevenlabs rachel), so by
the claim the resolver must return a voice registered for "en-US" or fail with
`NoVoiceAvailable`; instead the code falls through to the fallback provider's
en-IN default and returns anushka — a voice that does **not** support
"en-US" — with the fallback metadata populated. -/
theorem resolveVoice_unsupported_fallback_counterexample :
    regGet defaultRegistry "elevenlabs" "rachel"
        = some { provider := "elevenlabs", voice_id := "rachel",
                 languages := ["en-IN", "en-US"] }
    ∧ "en-US" ∈ (["en-IN", "en-US"] : List String)
    ∧ resolveVoice defaultRegistry "sarvam" "anushka" "en-US"
        = .ok { entry := { provider := "sarvam", voice_id := "anushka",
                           languages := INDIC_LANGS },
                provider := "sarvam",
                fallback_from_provider := some "sarvam",
                fallback_from_voice_id := some "anushka" }
    ∧ "en-US" ∉ INDIC_LANGS := by
  refine ⟨by decide, by decide, by decide, by decide⟩

/-- C8 (amended): if the requested (provider, voice id) is registered and
supports the requested language it is used with no fallback metadata;
otherwise — the requested voice missing or unsupporting — the resolver
returns the first registered sarvam voice for the requested language, or,
when sarvam has none for that language, sarvam's first en-IN voice (which
need not support the requested language), in both cases with `fallback_from`
holding the originally requested provider and voice id (clauses 2 and 3 state
this forward; clause 4 conversely pins any fallback-marked result); the
resolver fails (`NoVoiceAvailable`) exactly when the requested voice does not
support the language and sarvam has no voice for the language nor for
en-IN. -/
theorem resolveVoice_characterization :
    ∀ (reg : VoiceRegistry) (p v lang : String),
      (∀ e, regGet reg p v = some e → lang ∈ e.languages →
          resolveVoice reg p v lang
            = .ok { entry := e, provider := e.provider,
                    fallback_from_provider := none, fallback_from_voice_id := none })
      ∧ (∀ f rest, (∀ e, regGet reg p v = some e → lang ∉ e.languages) →
          voicesForLanguage reg "sarvam" lang = f :: rest →
          resolveVoice reg p v lang
            = .ok { entry := f, provider := f.provider,
                    fallback_from_provider := some p, fallback_from_voice_id := some v })
      ∧ (∀ d rest, (∀ e, regGet reg p v = some e → lang ∉ e.languages) →
          voicesForLanguage reg "sarvam" lang = [] →
          voicesForLanguage reg "sarvam" "en-IN" = d :: rest →
          resolveVoice reg p v lang
            = .ok { entry := d, provider := d.provider,
                    fallback_from_provider := some p, fallback_from_voice_id := some v })
      ∧ (∀ r, resolveVoice reg p v lang = .ok r → r.fallback_from_provider ≠ none →
          r.fallback_from_provider = some p ∧ r.fallback_from_voice_id = some v
          ∧ ((voicesForLanguage reg "sarvam" lang).head? = some r.entry
             ∨ (voicesForLanguage reg "sarvam" lang = []
                ∧ (voicesForLanguage reg "sarvam" "en-IN").head? = some r.entry)))
      ∧ ((∃ msg, resolveVoice reg p v lang = .error msg)
          ↔ (voicesForLanguage reg "sarvam" lang = []
             ∧ voicesForLanguage reg "sarvam" "en-IN" = []
             ∧ ∀ e, regGet reg p v = some e → lang ∉ e.languages)) := by
  intro reg p v lang
  refine ⟨?_, ?_, ?_, ?_, ?_⟩
  · intro e he hlang
    simp [resolveVoice, he, hlang]
  · intro f rest hnot hlist
    have hfall : findFallbackVoice reg lang = some f := by
      simp only [findFallbackVoice]
      rw [hlist]
    rcases hget : regGet reg p v with _ | e
    · simp only [resolveVoice, hget, hfall]
    · have hlang : lang ∉ e.languages := hnot e hget
      simp only [resolveVoice, hget, if_neg hlang, hfall]
  · intro d rest hnot hlist hlist2
    have hfall : findFallbackVoice reg lang = some d := by
      simp only [findFallbackVoice]
      rw [hlist, hlist2]
    rcases hget : regGet reg p v with _ | e
    · simp only [resolveVoice, hget, hfall]
    · have hlang : lang ∉ e.languages := hnot e hget
      simp only [resolveVoice, hget, if_neg hlang, hfall]
  · intro r hr hfb
    rcases hget : regGet reg p v with _ | e
    · simp only [resolveVoice, hget] at hr
      rcases hfall : findFallbackVoice reg lang with _ | f
      · rw [hfall] at hr
        cases hr
      · rw [hfall] at hr
        injection hr with hr
        subst hr
        refine ⟨rfl, rfl, ?_⟩
        simp only [findFallbackVoice] at hfall
        rcases hlist : voicesForLanguage reg "sarvam" lang with _ | ⟨c, rest⟩
        · rw [hlist] at hfall
          rcases hlist2 : voicesForLanguage reg "sarvam" "en-IN" with _ | ⟨d, rest2⟩
          · rw [hlist2] at hfall
            cases hfall
          · rw [hlist2] at hfall
            injection hfall with hfall
            right
            exact ⟨rfl, by simp [hfall]⟩
        · rw [hlist] at hfall
          injection hfall with hfall
          left
          simp [hfall]
    · by_cases hlang : lang ∈ e.languages
      · simp only [resolveVoice, hget, if_pos hlang] at hr
        injection hr with hr
        subst hr
        simp at hfb
      · simp only [resolveVoice, hget, if_neg hlang] at hr
        rcases hfall : findFallbackVoice reg lang with _ | f
        · rw [hfall] at hr
          cases hr
        · rw [hfall] at hr
          injection hr with hr
          subst hr
          refine ⟨rfl, rfl, ?_⟩
          simp only [findFallbackVoice] at hfall
          rcases hlist : voicesForLanguage reg "sarvam" lang with _ | ⟨c, rest⟩
          · rw [hlist] at hfall
            rcases hlist2 : voicesForLanguage reg "sarvam" "en-IN" with _ | ⟨d, rest2⟩
            · rw [hlist2] at hfall
              cases hfall
            · rw [hlist2] at hfall
              injection hfall with hfall
              right
              exact ⟨rfl, by simp [hfall]⟩
          · rw [hlist] at hfall
            injection hfall with hfall
            left
            simp [hfall]
  · constructor
    · rintro ⟨msg, hmsg⟩
      rcases hget : regGet reg p v with _ | e
      · simp only [resolveVoice, hget] at hmsg
        rcases hfall : findFallbackVoice reg lang with _ | f
        · simp only [findFallbackVoice] at hfall
          rcases hlist : voicesForLanguage reg "sarvam" lang with _ | ⟨c, rest⟩
          · rw [hlist] at hfall
            rcases hlist2 : voicesForLanguage reg "sarvam" "en-IN" with _ | ⟨d, rest2⟩
            · exact ⟨rfl, rfl, fun e he => Option.noConfusion he⟩
            · rw [hlist2] at hfall
              cases hfall
          · rw [hlist] at hfall
            cases hfall
        · rw [hfall] at hmsg
          cases hmsg
      · by_cases hlang : lang ∈ e.languages
        · simp only [resolveVoice, hget, if_pos hlang] at hmsg
          cases hmsg
        · simp only [resolveVoice, hget, if_neg hlang] at hmsg
          rcases hfall : findFallbackVoice reg lang with _ | f
          · simp only [findFallbackVoice] at hfall
            rcases hlist : voicesForLanguage reg "sarvam" lang with _ | ⟨c, rest⟩
            · rw [hlist] at hfall
              rcases hlist2 : voicesForLanguage reg "sarvam" "en-IN" with _ | ⟨d, rest2⟩
              · refine ⟨rfl, rfl, fun e' he' => ?_⟩
                injection he' with he'
                subst he'
                exact hlang
              · rw [hlist2] at hfall
                cases hfall
            · rw [hlist] at hfall
              cases hfall
          · rw [hfall] at hmsg
            cases hmsg
    · rintro ⟨hlist, hlist2, hsub⟩
      have hfall : findFallbackVoice reg lang = none := by
        simp only [findFallbackVoice]
        rw [hlist, hlist2]
      rcases hget : regGet reg p v with _ | e
      · refine ⟨"No available TTS voice for language " ++ lang ++ ".", ?_⟩
        simp only [resolveVoice, hget, hfall]
      · have hlang : lang ∉ e.languages := hsub e hget
        refine ⟨"No available TTS voice for language " ++ lang ++ ".", ?_⟩
        simp only [resolveVoice, hget, if_neg hlang, hfall]

/-- Witness for C8's amended theorem at concrete inputs on the built-in
registry: (elevenlabs, rachel) supports en-US and resolves with no fallback
metadata; an unregistered (elevenlabs, nonexistent) voice requested for ta-IN
resolves — by the forward fallback clause — to anushka, sarvam's first ta-IN
voice, with `fallback_from` populated; and an unknown language with an empty
registry fails. -/
theorem resolveVoice_characterization_witness :
    resolveVoice defaultRegistry "elevenlabs" "rachel" "en-US"
      = .ok { entry := { provider := "elevenlabs", voice_id := "rachel",
                         languages := ["en-IN", "en-US"] },
              provider := "elevenlabs",
              fallback_from_provider := none, fallback_from_voice_id := none }
    ∧ resolveVoice defaultRegistry "elevenlabs" "nonexistent" "ta-IN"
        = .ok { entry := { provider := "sarvam", voice_id := "anushka",
                           languages := INDIC_LANGS },
                provider := "sarvam",
                fallback_from_provider := some "elevenlabs",
                fallback_from_voice_id := some "nonexistent" }
    ∧ resolveVoice ([] : VoiceRegistry) "sarvam" "anushka" "fr-FR"
        = .error "No available TTS voice for language fr-FR." :=
  ⟨(resolveVoice_characterization defaultRegistry "elevenlabs" "rachel" "en-US").1
      { provider := "elevenlabs", voice_id := "rachel", languages := ["en-IN", "en-US"] }
      (by decide) (by decide),
   (resolveVoice_characterization defaultRegistry "elevenlabs" "nonexistent" "ta-IN").2.1
      { provider := "sarvam", voice_id := "anushka", languages := INDIC_LANGS }
      [ { provider := "sarvam", voice_id := "abhilash", languages := INDIC_LANGS },
        { provider := "sarvam", voice_id := "vidya", languages := ["ta-IN", "en-IN"] },
        { provider := "sarvam", voice_id := "karun", languages := ["ta-IN", "en-IN"] } ]
      (fun e he => by
        rw [(by decide : regGet defaultRegistry "elevenlabs" "nonexistent"
              = (none : Option VoiceEntry))] at he
        exact Option.noConfusion he)
      (by decide),
   by decide⟩

theorem lookupA_setA_cases {κ α : Type} [DecidableEq κ] (l : List (κ × α)) (key k : κ)
    (v : α) (e : α) (h : lookupA (setA l key v) k = some e) :
    lookupA l k = some e ∨ e = v := by
  by_cases hk : k = key
  · subst hk
    rw [lookupA_setA_self] at h
    right
    exact (Option.some.inj h).symm
  · left
    rwa [lookupA_setA_ne l key k v hk] at h

theorem llmSet_lookup (conn conn' : Conn LLMStore) (q : String) (resp : CachedLLMResponse)
    (ttl : Option Nat) (h : llmSet conn q resp ttl = .ok conn') :
    (∀ k e, lookupExact conn' k = some e → lookupExact conn k = some e ∨ e = resp)
    ∧ (∀ k e, lookupSemantic conn' k = some e → lookupSemantic conn k = some e ∨ e = resp) := by
  cases conn with
  | unconfigured =>
    simp only [llmSet] at h
    injection h with h
    subst h
    exact ⟨fun _ _ he => (nomatch he), fun _ _ he => (nomatch he)⟩
  | unreachable =>
    simp only [llmSet] at h
    cases h
  | ok s =>
    simp only [llmSet] at h
    by_cases hlev : resp.optimization_level ∈ ["quality", "balanced_quality"]
    · rw [if_pos hlev] at h
      injection h with h
      subst h
      constructor
      · intro k e he
        simp only [lookupExact] at he ⊢
        exact lookupA_setA_cases _ _ _ _ _ he
      · intro k e he
        simp only [lookupSemantic] at he ⊢
        exact lookupA_setA_cases _ _ _ _ _ he
    · rw [if_neg hlev] at h
      injection h with h
      subst h
      constructor
      · intro k e he
        simp only [lookupExact] at he ⊢
        exact lookupA_setA_cases _ _ _ _ _ he
      · intro k e he
        simp only [lookupSemantic] at he ⊢
        exact Or.inl he

/-- C9: every entry `_generate_internal` writes to the LLM cache has
`guardrail_safe = true` — on the only writing path both guardrail checks
passed and the stored entry is built with `guardrail_safe=True` — while a
response blocked by the layer-1 input check or the layer-3 output check is
returned to the caller with the safe-fallback text and `safe = false` and
the cache is left unchanged, so no unsafe text can later be served from an
exact or semantic cache hit. -/
theorem generateInternal_cache_writes_safe :
    ∀ (conn : Conn LLMStore) (enabled : Bool) (transcript lvl : String)
      (modelOut : Except String String) (usage : Nat) (ck1 ck2 ck3 ck4 : Bool)
      (r : LLMResponse) (conn' : Conn LLMStore),
      generateInternal conn enabled transcript lvl modelOut usage ck1 ck2 ck3 ck4
          = .ok (r, conn') →
      (∀ k e, lookupExact conn' k = some e →
          lookupExact conn k = some e ∨ e.guardrail_safe = true)
      ∧ (∀ k e, lookupSemantic conn' k = some e →
          lookupSemantic conn k = some e ∨ e.guardrail_safe = true)
      ∧ (getExact conn transcript lvl = .ok none →
          getSemantic conn transcript lvl (mkRat 7 10) = .ok none →
          (checkInput enabled transcript).passed = false →
          r.guardrail_flags.safe = false
          ∧ r.text = (checkInput enabled transcript).safe_response.getD
              "I cannot process this request."
          ∧ conn' = conn)
      ∧ (∀ t, getExact conn transcript lvl = .ok none →
          getSemantic conn transcript lvl (mkRat 7 10) = .ok none →
          (checkInput enabled transcript).passed = true →
          modelOut = .ok t →
          (checkOutput enabled t).passed = false →
          r.guardrail_flags.safe = false
          ∧ r.text = (checkOutput enabled t).safe_response.getD
              "I cannot provide that information."
          ∧ conn' = conn) := by
  intro conn enabled transcript lvl modelOut usage ck1 ck2 ck3 ck4 r conn' hgen
  simp only [generateInternal] at hgen
  split at hgen
  · cases hgen
  · split at hgen
    · cases hgen
    · rename_i cached hexact
      injection hgen with hp
      injection hp with hr hc
      subst hr
      subst hc
      refine ⟨fun k e he => Or.inl he, fun k e he => Or.inl he, ?_, ?_⟩
      · intro h1 _ _
        rw [hexact] at h1
        simp at h1
      · intro t h1 _ _ _ _
        rw [hexact] at h1
        simp at h1
    · rename_i hexact
      split at hgen
      · cases hgen
      · rename_i cached hsem
        injection hgen with hp
        injection hp with hr hc
        subst hr
        subst hc
        refine ⟨fun k e he => Or.inl he, fun k e he => Or.inl he, ?_, ?_⟩
        · intro _ h2 _
          rw [hsem] at h2
          simp at h2
        · intro t _ h2 _ _ _
          rw [hsem] at h2
          simp at h2
      · rename_i hsem
        split at hgen
        · cases hgen
        · split at hgen
          · rename_i hpass
            split at hgen
            · cases hgen
            · split at hgen
              · cases hgen
              · rename_i text
                split at hgen
                · cases hgen
                · split at hgen
                  · rename_i hout
                    split at hgen
                    · cases hgen
                    · rename_i c2 hset
                      injection hgen with hp
                      injection hp with hr hc
                      subst hr
                      subst hc
                      have hl := llmSet_lookup conn c2 transcript _ _ hset
                      refine ⟨?_, ?_, ?_, ?_⟩
                      · intro k e he
                        rcases hl.1 k e he with h | h
                        · exact Or.inl h
                        · right
                          rw [h]
                      · intro k e he
                        rcases hl.2 k e he with h | h
                        · exact Or.inl h
                        · right
                          rw [h]
                      · intro _ _ h3
                        rw [hpass] at h3
                        cases h3
                      · intro t _ _ _ hmo2 h5
                        injection hmo2 with hmo2
                        subst hmo2
                        rw [hout] at h5
                        cases h5
                  · rename_i hout
                    injection hgen with hp
                    injection hp with hr hc
                    subst hr
                    subst hc
                    refine ⟨fun k e he => Or.inl he, fun k e he => Or.inl he, ?_, ?_⟩
                    · intro _ _ h3
                      rw [hpass] at h3
                      cases h3
                    · intro t _ _ _ hmo2 h5
                      injection hmo2 with hmo2
                      subst hmo2
                      exact ⟨rfl, rfl, rfl⟩
          · rename_i hpass
            injection hgen with hp
            injection hp with hr hc
            subst hr
            subst hc
            refine ⟨fun k e he => Or.inl he, fun k e he => Or.inl he, ?_, ?_⟩
            · intro _ _ _
              exact ⟨rfl, rfl, rfl⟩
            · intro t _ _ h3 _ _
              exact absurd h3 hpass

/-- Witness for C9 at concrete input: a clean turn ("hello" → "hi", balanced
level, no interrupts) writes exactly one exact-match entry, and the invariant
instance given by the theorem shows the entry read back is either pre-existing
or safe (here: safe). -/
theorem generateInternal_cache_writes_safe_witness :
    generateInternal (Conn.ok { exactEntries := [], semanticEntries := [], queryIndex := [] })
        true "hello" "balanced" (.ok "hi") 3 false false false false
      = .ok ({ text := "hi",
               guardrail_flags := { safe := true, reason := none, post_checked := true },
               total_tokens := 3 },
             Conn.ok { exactEntries := [("llm:exact:hello:balanced",
                          { response_text := "hi", query_hash := "hello:balanced",
                            guardrail_safe := true, token_count := 3,
                            optimization_level := "balanced" })],
                       semanticEntries := [], queryIndex := [] })
    ∧ lookupExact
        (Conn.ok { exactEntries := [("llm:exact:hello:balanced",
                      { response_text := "hi", query_hash := "hello:balanced",
                        guardrail_safe := true, token_count := 3,
                        optimization_level := "balanced" })],
                   semanticEntries := [], queryIndex := [] })
        "llm:exact:hello:balanced"
      = some { response_text := "hi", query_hash := "hello:balanced",
               guardrail_safe := true, token_count := 3, optimization_level := "balanced" }
    ∧ (lookupExact
          (Conn.ok { exactEntries := [], semanticEntries := [], queryIndex := [] })
          "llm:exact:hello:balanced"
        = some { response_text := "hi", query_hash := "hello:balanced",
                 guardrail_safe := true, token_count := 3, optimization_level := "balanced" }
       ∨ ({ response_text := "hi", query_hash := "hello:balanced", guardrail_safe := true,
            token_count := 3,
            optimization_level := "balanced" } : CachedLLMResponse).guardrail_safe = true) :=
  ⟨by decide, by decide,
   (generateInternal_cache_writes_safe
      (Conn.ok { exactEntries := [], semanticEntries := [], queryIndex := [] })
      true "hello" "balanced" (.ok "hi") 3 false false false false
      { text := "hi",
        guardrail_flags := { safe := true, reason := none, post_checked := true },
        total_tokens := 3 }
      (Conn.ok { exactEntries := [("llm:exact:hello:balanced",
                    { response_text := "hi", query_hash := "hello:balanced",
                      guardrail_safe := true, token_count := 3,
                      optimization_level := "balanced" })],
                 semanticEntries := [], queryIndex := [] })
      (by decide)).1 "llm:exact:hello:balanced"
      { response_text := "hi", query_hash := "hello:balanced", guardrail_safe := true,
        token_count := 3, optimization_level := "balanced" }
      (by decide)⟩

end Speech
